import Mathlib

/-!
Verification of the DASH PGAS runtime core and its distributed sort helpers.

Shallow embedding of:
* src/dart-impl/gaspi/src/dart_team_group.c   (dart_team_create)
* src/dart-impl/mpi/src/dart_globmem.c        (dart_gptr_getaddr, dart_memalloc)
* src/dash/include/dash/algorithm/sort/Merge.h
  (psort__remote_partitions, psort__schedule_copy_tasks,
   psort__exchange_data, psort__merge_tree)
* src/dash/include/dash/allocator/PersistentMemoryAllocator.h (equality)

Machine integers are modelled by Nat/Int; none of the verified properties
depends on overflow behaviour.
-/

set_option autoImplicit false

/-- DART return codes (subset used by the embedded sources). -/
inductive dart_ret_t where
  | DART_OK
  | DART_ERR_INVAL
  | DART_ERR_OTHER
deriving DecidableEq, Repr

/-- DART global pointer: unit id, segment id, flags, and the
addr_or_offs.offset member (src/dart-impl/mpi/src/dart_globmem.c). -/
structure dart_gptr_t where
  unitid : Int
  segid  : Int
  flags  : Int
  offset : Int
deriving DecidableEq, Repr

/-- Value of the out-parameter addr of dart_gptr_getaddr after the call:
either left unwritten (error path), written as NULL, or written as a
concrete local address. -/
inductive addr_out where
  | unset
  | null
  | addr (a : Int)
deriving DecidableEq, Repr

/-- dart_gptr_getaddr (src/dart-impl/mpi/src/dart_globmem.c lines 35-66),
non SHAREDMEM_ENABLE build.  The translation table lookup
dart_adapt_transtable_get_selfbaseptr is passed in as transtable
(none models the lookup returning -1); dart_mempool_localalloc is the
base of the process-local pool.  The branch structure, including the dead
inner guard on the local-segment path, follows the C source. -/
def dart_gptr_getaddr (myid : Int) (transtable : Int → Option Int)
    (dart_mempool_localalloc : Int) (gptr : dart_gptr_t) :
    dart_ret_t × addr_out :=
  let seg_id := gptr.segid
  let offset := gptr.offset
  if myid = gptr.unitid then
    if seg_id ≠ 0 then
      match transtable seg_id with
      | none => (.DART_ERR_INVAL, .unset)
      | some base => (.DART_OK, .addr (offset + base))
    else
      if myid = gptr.unitid then
        (.DART_OK, .addr (offset + dart_mempool_localalloc))
      else
        (.DART_OK, .unset)
  else
    (.DART_OK, .null)

/-- Modelled from the spec: the buddy allocator behind dart_buddy_alloc
(dart_mem.c is not among the sources).  Spec section 4.D: a fixed-size
arena managed by a buddy allocator with power-of-two classes; alloc
returns a failure when the arena cannot satisfy the request.  The state
is the free list: blocks (order, offset), a block of order k covering
the offsets in [offset, offset + 2 ^ k). -/
structure dart_buddy where
  freelist : List (Nat × Nat)
deriving DecidableEq, Repr

/-- Fuel-driven ceiling base-2 logarithm (structural recursion, so that
concrete instances reduce inside the kernel). -/
def clog2Aux (fuel n : Nat) : Nat :=
  match fuel with
  | 0 => 0
  | fuel + 1 => if n ≤ 1 then 0 else clog2Aux fuel ((n + 1) / 2) + 1

/-- Ceiling base-2 logarithm: the smallest k with n ≤ 2 ^ k (for n ≥ 1);
proved equal to Nat.clog 2 below. -/
def ceilLog2 (n : Nat) : Nat := clog2Aux n n

/-- First free block whose order is at least o (first fit). -/
def buddy_find : List (Nat × Nat) → Nat → Option (Nat × Nat)
  | [], _ => none
  | b :: rest, o => if o ≤ b.1 then some b else buddy_find rest o

/-- Remove the first occurrence of a block from a free list. -/
def removeBlock : List (Nat × Nat) → Nat × Nat → List (Nat × Nat)
  | [], _ => []
  | b :: rest, t => if b = t then rest else b :: removeBlock rest t

/-- Buddy blocks put back on the free list when a block at off is split
down k times to the requested order o: orders o, o+1, ..., o+k-1. -/
def splitBuddies (off o : Nat) : Nat → List (Nat × Nat)
  | 0 => []
  | k + 1 => (o + k, off + 2 ^ (o + k)) :: splitBuddies off o k

/-- Modelled from the spec: dart_buddy_alloc (dart_mem.c is not among the
sources).  Returns the allocated 64-bit offset, or -1 when the pool
cannot satisfy the request, in which case the free list is untouched. -/
def dart_buddy_alloc (pool : dart_buddy) (nbytes : Nat) : Int × dart_buddy :=
  let o := ceilLog2 nbytes
  match buddy_find pool.freelist o with
  | none => (-1, pool)
  | some b =>
      let rest := removeBlock pool.freelist b
      ((b.2 : Int), ⟨splitBuddies b.2 o (b.1 - o) ++ rest⟩)

/-- Return value, filled gptr, and pool state after dart_memalloc. -/
structure dart_memalloc_result where
  ret  : dart_ret_t
  gptr : dart_gptr_t
  pool : dart_buddy
deriving DecidableEq, Repr

/-- dart_memalloc (src/dart-impl/mpi/src/dart_globmem.c lines 107-122):
unitid := caller, segid := 0, flags := 0, offset := dart_buddy_alloc
result; DART_ERR_OTHER when the buddy allocator returns -1. -/
def dart_memalloc (myid : Int) (pool : dart_buddy) (nbytes : Nat) :
    dart_memalloc_result :=
  let r := dart_buddy_alloc pool nbytes
  let gptr : dart_gptr_t := ⟨myid, 0, 0, r.1⟩
  if r.1 = -1 then ⟨.DART_ERR_OTHER, gptr, r.2⟩
  else ⟨.DART_OK, gptr, r.2⟩

/-- DART_TEAM_NULL ((dart_team_t)(-1), dart_types.h); the exact value is
immaterial to the verified properties. -/
def DART_TEAM_NULL : Int := -1

/-- The gaspi_allreduce with GASPI_OP_MAX invoked by dart_team_create over
the parent team: the caller contributes pre, the remaining parent
members contribute others. -/
def allreduceMax (pre : Int) (others : List Int) : Int :=
  others.foldl max pre

/-- Observable outcome of dart_team_create on the calling unit: return
code, the dart_next_availteamid counter after the call, and the value
written to *newteam (none when the out-parameter is not written). -/
structure dart_team_create_result where
  ret : dart_ret_t
  dart_next_availteamid : Int
  newteam : Option Int
deriving DecidableEq, Repr

/-- dart_team_create (src/dart-impl/gaspi/src/dart_team_group.c lines
25-112) as observed by one calling unit.  convertOk models
dart_adapt_teamlist_convert on the parent id succeeding, pre is the
local dart_next_availteamid before the call, others are the other parent
members allreduce contributions, ismember is the dart_group_ismember
result, allocOk models dart_adapt_teamlist_alloc succeeding.  The gaspi
group bookkeeping does not affect the modelled observables. -/
def dart_team_create (convertOk : Bool) (pre : Int) (others : List Int)
    (ismember : Bool) (allocOk : Bool) : dart_team_create_result :=
  if !convertOk then ⟨.DART_ERR_INVAL, pre, none⟩
  else
    let max_teamid := allreduceMax pre others
    let next := max_teamid + 1
    if !ismember then ⟨.DART_OK, next, none⟩
    else if !allocOk then ⟨.DART_ERR_OTHER, next, some DART_TEAM_NULL⟩
    else ⟨.DART_OK, next, some max_teamid⟩

/-- State of a PersistentMemoryAllocator instance relevant to equality:
sizeof of the element type and the members _team_id, _nunits, _poolId
(src/dash/include/dash/allocator/PersistentMemoryAllocator.h). -/
structure PersistentMemoryAllocator where
  sizeofElementType : Nat
  team_id : Int
  nunits  : Nat
  poolId  : String
deriving DecidableEq, Repr

/-- The member operator== (PersistentMemoryAllocator.h lines 239-242):
it compares only _team_id.  For two operands of the same allocator type
C++ overload resolution selects this non-template member over the friend
template operator==. -/
def PersistentMemoryAllocator.member_operator_eq
    (lhs rhs : PersistentMemoryAllocator) : Bool :=
  lhs.team_id == rhs.team_id

/-- The friend template operator== (PersistentMemoryAllocator.h lines
553-562): sizeof(T) == sizeof(U), same _team_id, same _poolId, same
_nunits.  It is selected only when the element types differ. -/
def PersistentMemoryAllocator.friend_operator_eq
    (lhs rhs : PersistentMemoryAllocator) : Bool :=
  lhs.sizeofElementType == rhs.sizeofElementType &&
    lhs.team_id == rhs.team_id &&
    lhs.poolId == rhs.poolId &&
    lhs.nunits == rhs.nunits

/-- ChunkRange (sort/Types.h via spec section 3): a half-open range
[lo, hi) of partition indices, the key type of the chunk dependency
map. -/
abbrev ChunkRange := Nat × Nat

/-- Key set of a std::map after insert/emplace of k: the key is added at
the end only if it is not yet present.  The futures stored as values
carry no observable data, so the chunk dependency map is modelled by its
key set. -/
def mapInsert (m : List ChunkRange) (k : ChunkRange) : List ChunkRange :=
  if k ∈ m then m else m ++ [k]

/-- DART_UNDEFINED_UNIT_ID ((dart_unit_t)(-1), dart_types.h): the skipped
sentinel used by psort__remote_partitions. -/
def DART_UNDEFINED_UNIT_ID : Int := -1

/-- psort__remote_partitions (Merge.h lines 244-278): unit_at_begin first
when its target count is nonzero and it is not whoami, then for each
splitter the unit splitter+1 or the sentinel, then erase/remove_if of the
sentinels. -/
def psort__remote_partitions (valid_splitters target_counts : List Nat)
    (unit_at_begin whoami : Nat) : List Int :=
  let first : List Int :=
    if target_counts.getD unit_at_begin 0 ≠ 0 ∧ whoami ≠ unit_at_begin then
      [(unit_at_begin : Int)]
    else []
  let mapped : List Int := valid_splitters.map fun (splitter : Nat) =>
    let right_unit : Int := (splitter : Int) + 1
    if target_counts.getD (splitter + 1) 0 ≠ 0 ∧ whoami ≠ splitter + 1 then
      right_unit
    else DART_UNDEFINED_UNIT_ID
  (first ++ mapped).filter fun u => u != DART_UNDEFINED_UNIT_ID

/-- The remote partition list exactly as the claim describes it:
unit_at_begin (when its target count is positive and it differs from
whoami), then, in input order, s+1 for each s in valid_splitters with a
positive target count and different from whoami; skipped entries
removed, relative order preserved. -/
def remote_partitions_claim (valid_splitters target_counts : List Nat)
    (unit_at_begin whoami : Nat) : List Nat :=
  (if 0 < target_counts.getD unit_at_begin 0 ∧ unit_at_begin ≠ whoami then
      [unit_at_begin]
    else []) ++
  (valid_splitters.filter fun s =>
      decide (0 < target_counts.getD (s + 1) 0) && decide (s + 1 ≠ whoami)).map
    (· + 1)

/-- Key set built by psort__schedule_copy_tasks (Merge.h lines 81-122):
std::transform inserts one key [p, p+1) per remote partition, then the
local range [whoami, whoami+1) is emplaced. -/
def psort__schedule_copy_tasks (remote_partitions : List Nat)
    (whoami : Nat) : List ChunkRange :=
  let chunk_dependencies := remote_partitions.foldl
    (fun m partition => mapInsert m (partition, partition + 1)) []
  mapInsert chunk_dependencies (whoami, whoami + 1)

/-- dart_handle_t: DART_HANDLE_NULL or the opaque handle stored by
dart get_handle for a given source unit. -/
inductive dart_handle_t where
  | DART_HANDLE_NULL
  | handle (src_unit : Nat)
deriving DecidableEq, Repr

/-- Observable outcome of psort__exchange_data: the handle vector and
the sequence of issued get operations
(source unit, target_count, src_disp, target_disp). -/
structure exchange_result where
  handles : List dart_handle_t
  gets : List (Nat × Nat × Nat × Nat)
deriving DecidableEq, Repr

/-- psort__exchange_data (Merge.h lines 17-79): handles start as
team.size() nulls; when to_local_begin is null (empty unit) the function
returns immediately; otherwise one get_handle per remote partition is
issued, storing a non-null handle at index unit.  The source iterator
arithmetic feeds only the arguments of the issued get, recorded in
gets. -/
def psort__exchange_data (team_size : Nat) (to_local_begin_null : Bool)
    (remote_partitions : List Nat)
    (get_send_info : Nat → Nat × Nat × Nat) : exchange_result :=
  let handles := List.replicate team_size dart_handle_t.DART_HANDLE_NULL
  if to_local_begin_null then ⟨handles, []⟩
  else
    remote_partitions.foldl
      (fun st unit =>
        let info := get_send_info unit
        ⟨st.handles.set unit (dart_handle_t.handle unit),
         st.gets ++ [(unit, info.1, info.2.1, info.2.2)]⟩)
      ⟨handles, []⟩

/-- Key (f, l) of merge m on level d of the merge tree (Merge.h lines
192-197): f = m*dist, l = min(m*dist + dist, npartitions) with
step = 1 << d and dist = step << 1. -/
def mergeKey (npartitions d m : Nat) : ChunkRange :=
  let step := 1 <<< d
  let dist := step <<< 1
  (m * dist, min (m * dist + dist) npartitions)

/-- One level d of the merge tree loop (Merge.h lines 180-237) acting on
the state (chunk dependency keys, nchunks): nmerges = nchunks >> 1 merges
are emplaced, then nchunks -= nmerges. -/
def mergeTreeLevel (npartitions : Nat) (st : List ChunkRange × Nat)
    (d : Nat) : List ChunkRange × Nat :=
  let nmerges := st.2 >>> 1
  let deps := (List.range nmerges).foldl
    (fun m mm => mapInsert m (mergeKey npartitions d mm)) st.1
  (deps, st.2 - nmerges)

/-- The nchunks loop variable of psort__merge_tree on entry to level d. -/
def mergeNchunks (nchunks : Nat) : Nat → Nat
  | 0 => nchunks
  | d + 1 => mergeNchunks nchunks d - (mergeNchunks nchunks d) >>> 1

/-- psort__merge_tree (Merge.h lines 165-242): the chunk dependency key
set after all depth = ceil(log2 nchunks) levels ran.  The double
std::ceil(std::log2(nchunks)) is the exact ceiling logarithm
Nat.clog 2 for every representable nchunks; npartitions is the initial
nchunks.  The terminating lookup is chunk_dependencies.at({0,
npartitions}). -/
def psort__merge_tree (chunk_dependencies : List ChunkRange)
    (nchunks : Nat) : List ChunkRange :=
  let depth := ceilLog2 nchunks
  let npartitions := nchunks
  ((List.range depth).foldl (mergeTreeLevel npartitions)
    (chunk_dependencies, nchunks)).1

/-! ### Helper lemmas -/

theorem le_foldl_max (l : List Int) (a : Int) : a ≤ l.foldl max a := by
  induction l generalizing a with
  | nil => exact le_refl a
  | cons x t ih => exact le_trans (le_max_left a x) (ih (max a x))

theorem dart_buddy_alloc_fail_pool (pool : dart_buddy) (nbytes : Nat)
    (h : (dart_buddy_alloc pool nbytes).1 = -1) :
    (dart_buddy_alloc pool nbytes).2 = pool := by
  cases hf : buddy_find pool.freelist (ceilLog2 nbytes) with
  | none => simp [dart_buddy_alloc, hf]
  | some b =>
      simp only [dart_buddy_alloc, hf] at h
      omega

/-! ### C1 and C6: dart_team_create -/

/-- C1 (counterexample): with pre-call counters 5 (caller) and 7 (peer),
the allreduce-MAX is 7 and the code writes *newteam = 7, not 7 + 1 as the
claim states. -/
theorem dart_team_create_newteam_not_max_plus_one :
    (dart_team_create true 5 [7] true true).newteam
      ≠ some (allreduceMax 5 [7] + 1) := by decide

/-- C1 (amended): for a collective dart_team_create on a parent team in
which the caller is a member of the new group (and the team slot
allocation succeeds), the new team id written to *newteam equals the
allreduce-MAX over all parent members pre-call dart_next_availteamid
values, NOT incremented; the incremented value becomes the new
dart_next_availteamid counter instead. -/
theorem dart_team_create_newteam_eq_allreduce_max (pre : Int)
    (others : List Int) :
    (dart_team_create true pre others true true).newteam
      = some (allreduceMax pre others) := by
  simp [dart_team_create]

/-- C6: after every dart_team_create call on a valid parent team (member
or not, also on the early non-member return, and also when the team slot
allocation fails), the callers dart_next_availteamid equals the
allreduce-MAX of all parent members pre-create counters plus one, and in
particular is strictly greater than its pre-call value. -/
theorem dart_team_create_next_availteamid (pre : Int) (others : List Int)
    (ismember allocOk : Bool) :
    (dart_team_create true pre others ismember allocOk).dart_next_availteamid
      = allreduceMax pre others + 1
    ∧ pre < (dart_team_create true pre others ismember
        allocOk).dart_next_availteamid := by
  have h : pre ≤ allreduceMax pre others := le_foldl_max others pre
  cases ismember <;> cases allocOk <;>
    exact ⟨rfl, by simp [dart_team_create]; omega⟩

/-! ### C2 and C10: dart_gptr_getaddr -/

/-- C2: for every gptr whose segment resolves (or whose segment is 0),
dart_gptr_getaddr returns DART_OK, sets addr to the local address
(base of segment or local pool, plus the offset of gptr) if and only if
the calling unit equals gptr.unitid, and when they differ writes NULL
while still returning DART_OK. -/
theorem dart_gptr_getaddr_local_iff (myid : Int)
    (transtable : Int → Option Int) (localalloc : Int) (gptr : dart_gptr_t)
    (hres : gptr.segid = 0 ∨ (transtable gptr.segid).isSome) :
    (dart_gptr_getaddr myid transtable localalloc gptr).1 = .DART_OK
    ∧ ((dart_gptr_getaddr myid transtable localalloc gptr).2
        = .addr (gptr.offset +
            (if gptr.segid = 0 then localalloc
             else (transtable gptr.segid).getD 0))
        ↔ myid = gptr.unitid)
    ∧ (myid ≠ gptr.unitid →
        (dart_gptr_getaddr myid transtable localalloc gptr).2
          = .null) := by
  by_cases hm : myid = gptr.unitid
  · by_cases hs : gptr.segid = 0
    · simp [dart_gptr_getaddr, hm, hs]
    · rcases hres with h0 | hsome
      · exact absurd h0 hs
      · obtain ⟨base, hb⟩ := Option.isSome_iff_exists.mp hsome
        simp [dart_gptr_getaddr, hm, hs, hb]
  · by_cases hs : gptr.segid = 0 <;> simp [dart_gptr_getaddr, hm, hs]

theorem dart_gptr_getaddr_local_iff_witness :
    (dart_gptr_getaddr 0 (fun _ => none) 1000 ⟨0, 0, 0, 8⟩).1
      = .DART_OK :=
  (dart_gptr_getaddr_local_iff 0 (fun _ => none) 1000 ⟨0, 0, 0, 8⟩
    (Or.inl rfl)).1

/-- C10: when the caller owns the pointer and the nonzero segment id does
not resolve in the translation table, dart_gptr_getaddr returns
DART_ERR_INVAL (and does not write NULL with DART_OK). -/
theorem dart_gptr_getaddr_unresolved_segment (myid : Int)
    (transtable : Int → Option Int) (localalloc : Int) (gptr : dart_gptr_t)
    (hown : myid = gptr.unitid) (hseg : gptr.segid ≠ 0)
    (hmiss : transtable gptr.segid = none) :
    (dart_gptr_getaddr myid transtable localalloc gptr).1
      = .DART_ERR_INVAL
    ∧ (dart_gptr_getaddr myid transtable localalloc gptr).2
        ≠ addr_out.null := by
  simp [dart_gptr_getaddr, hown, hseg, hmiss]

theorem dart_gptr_getaddr_unresolved_segment_witness :
    (dart_gptr_getaddr 1 (fun _ => none) 1000 ⟨1, 2, 0, 8⟩).1
      = .DART_ERR_INVAL
    ∧ (dart_gptr_getaddr 1 (fun _ => none) 1000 ⟨1, 2, 0, 8⟩).2
        ≠ addr_out.null :=
  dart_gptr_getaddr_unresolved_segment 1 (fun _ => none) 1000 ⟨1, 2, 0, 8⟩
    rfl (by decide) rfl

/-! ### C9: dart_memalloc -/

/-- C9: dart_memalloc fills the gptr with segment id 0, owner equal to
the calling unit, and offset equal to the buddy-allocator result when
the pool can satisfy the request; when the buddy allocator cannot
satisfy the request it returns DART_ERR_OTHER and leaves the pools free
list unaltered. -/
theorem dart_memalloc_spec (myid : Int) (pool : dart_buddy) (nbytes : Nat) :
    ((dart_buddy_alloc pool nbytes).1 ≠ -1 →
      dart_memalloc myid pool nbytes
        = ⟨.DART_OK, ⟨myid, 0, 0, (dart_buddy_alloc pool nbytes).1⟩,
            (dart_buddy_alloc pool nbytes).2⟩)
    ∧ ((dart_buddy_alloc pool nbytes).1 = -1 →
      (dart_memalloc myid pool nbytes).ret = .DART_ERR_OTHER
      ∧ (dart_memalloc myid pool nbytes).pool = pool) := by
  constructor
  · intro h
    simp [dart_memalloc, h]
  · intro h
    refine ⟨by simp [dart_memalloc, h], ?_⟩
    have := dart_buddy_alloc_fail_pool pool nbytes h
    simp [dart_memalloc, h, this]

theorem dart_memalloc_spec_witness :
    dart_memalloc 0 ⟨[(3, 0)]⟩ 8
      = ⟨.DART_OK, ⟨0, 0, 0, (dart_buddy_alloc ⟨[(3, 0)]⟩ 8).1⟩,
          (dart_buddy_alloc ⟨[(3, 0)]⟩ 8).2⟩
    ∧ ((dart_memalloc 0 ⟨[]⟩ 8).ret = .DART_ERR_OTHER
        ∧ (dart_memalloc 0 ⟨[]⟩ 8).pool = ⟨[]⟩) :=
  ⟨(dart_memalloc_spec 0 ⟨[(3, 0)]⟩ 8).1 (by decide),
   (dart_memalloc_spec 0 ⟨[]⟩ 8).2 (by decide)⟩

/-! ### C7: PersistentMemoryAllocator equality -/

/-- C7 (counterexample): two allocator instances of the same element type
(size 4) with the same team id 1 and size 2 but different pool ids
compare equal under the member operator== selected by overload
resolution, contradicting the claimed same-team, same-pool, same-size
characterisation. -/
theorem PersistentMemoryAllocator_eq_counterexample :
    ¬ (PersistentMemoryAllocator.member_operator_eq
          ⟨4, 1, 2, "pool.pmem"⟩ ⟨4, 1, 2, "other"⟩ = true
        ↔ ((1 : Int) = 1 ∧ "pool.pmem" = "other" ∧ (2 : Nat) = 2)) := by
  decide

/-- C7 (amended): two PersistentMemoryAllocator instances of the same
element type compare equal with operator== if and only if they have the
same team id (the member operator selected for same-type operands
ignores pool id and size); the cross-element-type friend template
operator== additionally requires equal element sizes, equal pool ids and
equal unit counts. -/
theorem PersistentMemoryAllocator_operator_eq_spec
    (lhs rhs : PersistentMemoryAllocator) :
    (PersistentMemoryAllocator.member_operator_eq lhs rhs = true
      ↔ lhs.team_id = rhs.team_id)
    ∧ (PersistentMemoryAllocator.friend_operator_eq lhs rhs = true
      ↔ (lhs.sizeofElementType = rhs.sizeofElementType
          ∧ lhs.team_id = rhs.team_id
          ∧ lhs.poolId = rhs.poolId
          ∧ lhs.nunits = rhs.nunits)) := by
  constructor
  · simp [PersistentMemoryAllocator.member_operator_eq]
  · simp [PersistentMemoryAllocator.friend_operator_eq, and_assoc]

/-! ### C3: psort__remote_partitions -/

theorem sentinel_filter_drop :
    ¬ ((DART_UNDEFINED_UNIT_ID != DART_UNDEFINED_UNIT_ID) = true) := by
  decide

theorem unit_filter_keep (n : Nat) :
    (((n : Int)) != DART_UNDEFINED_UNIT_ID) = true :=
  bne_iff_ne.mpr (by unfold DART_UNDEFINED_UNIT_ID; omega)

theorem filter_map_splitters (target_counts : List Nat) (whoami : Nat)
    (vs : List Nat) :
    ((vs.map fun (splitter : Nat) =>
        if target_counts.getD (splitter + 1) 0 ≠ 0 ∧ whoami ≠ splitter + 1
        then ((splitter : Int) + 1)
        else DART_UNDEFINED_UNIT_ID).filter
      fun u => u != DART_UNDEFINED_UNIT_ID)
    = ((vs.filter fun s =>
          decide (0 < target_counts.getD (s + 1) 0)
            && decide (s + 1 ≠ whoami)).map (· + 1)).map
        (fun n : Nat => (n : Int)) := by
  induction vs with
  | nil => rfl
  | cons s t ih =>
    simp only [List.map_cons, List.filter_cons]
    by_cases h1 : target_counts.getD (s + 1) 0 = 0
    · have hcond : ¬ (target_counts.getD (s + 1) 0 ≠ 0 ∧ whoami ≠ s + 1) :=
        fun h => h.1 h1
      have hb : (decide (0 < target_counts.getD (s + 1) 0)
          && decide (s + 1 ≠ whoami)) = false := by
        rw [decide_eq_false (by omega : ¬ 0 < target_counts.getD (s + 1) 0),
          Bool.false_and]
      rw [if_neg hcond, if_neg sentinel_filter_drop,
        if_neg (by rw [hb]; exact Bool.false_ne_true)]
      exact ih
    · by_cases h2 : whoami = s + 1
      · have hcond : ¬ (target_counts.getD (s + 1) 0 ≠ 0 ∧ whoami ≠ s + 1) :=
          fun h => h.2 h2
        have hb : (decide (0 < target_counts.getD (s + 1) 0)
            && decide (s + 1 ≠ whoami)) = false := by
          rw [decide_eq_false (fun hne => hne h2.symm : ¬ s + 1 ≠ whoami),
            Bool.and_false]
        rw [if_neg hcond, if_neg sentinel_filter_drop,
          if_neg (by rw [hb]; exact Bool.false_ne_true)]
        exact ih
      · have hcond : target_counts.getD (s + 1) 0 ≠ 0 ∧ whoami ≠ s + 1 :=
          ⟨h1, h2⟩
        have hb : (decide (0 < target_counts.getD (s + 1) 0)
            && decide (s + 1 ≠ whoami)) = true := by
          rw [Bool.and_eq_true, decide_eq_true_eq, decide_eq_true_eq]
          exact ⟨Nat.pos_of_ne_zero h1, fun he => h2 he.symm⟩
        have hkeep : (((s : Int) + 1) != DART_UNDEFINED_UNIT_ID) = true :=
          bne_iff_ne.mpr (by unfold DART_UNDEFINED_UNIT_ID; omega)
        rw [if_pos hcond, if_pos hkeep, if_pos hb]
        simp only [List.map_cons]
        rw [ih]
        norm_cast

/-- C3: for every valid_splitters, target_counts, unit_at_begin and
whoami, with unit_at_begin and every s+1 valid indices into
target_counts, psort__remote_partitions returns exactly the list of the
claim: unit_at_begin first when target_counts[unit_at_begin] > 0 and it
differs from whoami, then s+1 for each s in valid_splitters in input
order when target_counts[s+1] > 0 and s+1 differs from whoami, skipped
entries removed and relative order preserved. -/
theorem psort__remote_partitions_spec (valid_splitters target_counts : List Nat)
    (unit_at_begin whoami : Nat)
    (hbegin : unit_at_begin < target_counts.length)
    (hsplit : ∀ s ∈ valid_splitters, s + 1 < target_counts.length) :
    psort__remote_partitions valid_splitters target_counts unit_at_begin
        whoami
      = (remote_partitions_claim valid_splitters target_counts unit_at_begin
          whoami).map (fun n : Nat => (n : Int)) := by
  unfold psort__remote_partitions remote_partitions_claim
  rw [List.filter_append, List.map_append]
  congr 1
  · by_cases h1 : target_counts.getD unit_at_begin 0 = 0
    · have hc : ¬ (target_counts.getD unit_at_begin 0 ≠ 0
          ∧ whoami ≠ unit_at_begin) := fun h => h.1 h1
      have hc2 : ¬ (0 < target_counts.getD unit_at_begin 0
          ∧ unit_at_begin ≠ whoami) := fun h => by omega
      rw [if_neg hc, if_neg hc2]
      rfl
    · by_cases h2 : whoami = unit_at_begin
      · have hc : ¬ (target_counts.getD unit_at_begin 0 ≠ 0
            ∧ whoami ≠ unit_at_begin) := fun h => h.2 h2
        have hc2 : ¬ (0 < target_counts.getD unit_at_begin 0
            ∧ unit_at_begin ≠ whoami) := fun h => h.2 h2.symm
        rw [if_neg hc, if_neg hc2]
        rfl
      · have hc : target_counts.getD unit_at_begin 0 ≠ 0
            ∧ whoami ≠ unit_at_begin := ⟨h1, h2⟩
        have hc2 : 0 < target_counts.getD unit_at_begin 0
            ∧ unit_at_begin ≠ whoami :=
          ⟨Nat.pos_of_ne_zero h1, fun he => h2 he.symm⟩
        rw [if_pos hc, if_pos hc2]
        simp only [List.filter_cons, List.filter_nil,
          if_pos (unit_filter_keep unit_at_begin), List.map_cons,
          List.map_nil]
  · exact filter_map_splitters target_counts whoami valid_splitters

theorem psort__remote_partitions_spec_witness :
    psort__remote_partitions [0, 1, 2] [3, 0, 5, 2] 0 2
      = (remote_partitions_claim [0, 1, 2] [3, 0, 5, 2] 0 2).map
          (fun n : Nat => (n : Int)) :=
  psort__remote_partitions_spec [0, 1, 2] [3, 0, 5, 2] 0 2 (by decide)
    (by decide)

/-! ### C5: psort__schedule_copy_tasks -/

theorem foldl_mapInsert_keys (l : List Nat) (acc : List ChunkRange)
    (hfresh : ∀ p ∈ l, ((p, p + 1) : ChunkRange) ∉ acc) (hnd : l.Nodup) :
    l.foldl (fun m p => mapInsert m (p, p + 1)) acc
      = acc ++ l.map fun p => ((p, p + 1) : ChunkRange) := by
  induction l generalizing acc with
  | nil => simp
  | cons p t ih =>
    obtain ⟨hp, hnd2⟩ := List.nodup_cons.mp hnd
    have h1 : mapInsert acc (p, p + 1) = acc ++ [(p, p + 1)] := by
      rw [mapInsert, if_neg (hfresh p (List.mem_cons_self p t))]
    have hfresh2 : ∀ q ∈ t, ((q, q + 1) : ChunkRange) ∉ acc ++ [(p, p + 1)] := by
      intro q hq
      rw [List.mem_append]
      push_neg
      refine ⟨hfresh q (List.mem_cons_of_mem _ hq), ?_⟩
      simp only [List.mem_singleton]
      intro he
      have hqp : q = p := ((Prod.mk.injEq _ _ _ _).mp he).1
      exact hp (hqp ▸ hq)
    simp only [List.foldl_cons, h1, List.map_cons]
    rw [ih (acc ++ [(p, p + 1)]) hfresh2 hnd2]
    simp

/-- C5: for every remote_partitions list with pairwise distinct elements
all different from whoami, psort__schedule_copy_tasks produces a chunk
dependency map whose keys are exactly one range [p, p+1) per remote
partition p plus [whoami, whoami+1) for the local copy, so it has
exactly one more entry than remote_partitions and the DASH_ASSERT_EQ on
the map size holds. -/
theorem psort__schedule_copy_tasks_spec (remote_partitions : List Nat)
    (whoami : Nat) (hnd : remote_partitions.Nodup)
    (hw : whoami ∉ remote_partitions) :
    psort__schedule_copy_tasks remote_partitions whoami
      = (remote_partitions.map fun p => ((p, p + 1) : ChunkRange))
          ++ [(whoami, whoami + 1)]
    ∧ (psort__schedule_copy_tasks remote_partitions whoami).length
        = remote_partitions.length + 1 := by
  have h1 := foldl_mapInsert_keys remote_partitions [] (by simp) hnd
  have h2 : ((whoami, whoami + 1) : ChunkRange)
      ∉ remote_partitions.map fun p => ((p, p + 1) : ChunkRange) := by
    intro hmem
    obtain ⟨p, hp, he⟩ := List.mem_map.mp hmem
    have hpw : p = whoami := ((Prod.mk.injEq _ _ _ _).mp he).1
    exact hw (hpw ▸ hp)
  have hmain : psort__schedule_copy_tasks remote_partitions whoami
      = (remote_partitions.map fun p => ((p, p + 1) : ChunkRange))
          ++ [(whoami, whoami + 1)] := by
    unfold psort__schedule_copy_tasks
    rw [h1]
    simp only [List.nil_append]
    rw [mapInsert, if_neg h2]
  exact ⟨hmain, by rw [hmain]; simp⟩

theorem psort__schedule_copy_tasks_spec_witness :
    psort__schedule_copy_tasks [0, 2] 1
      = ([0, 2].map fun p => ((p, p + 1) : ChunkRange)) ++ [(1, 2)]
    ∧ (psort__schedule_copy_tasks [0, 2] 1).length = [0, 2].length + 1 :=
  psort__schedule_copy_tasks_spec [0, 2] 1 (by decide) (by decide)

/-! ### C8: psort__exchange_data -/

theorem getD_set_ne {α : Type} (l : List α) (i j : Nat) (a d : α)
    (h : i ≠ j) : (l.set i a).getD j d = l.getD j d := by
  induction l generalizing i j with
  | nil => rfl
  | cons x t ih =>
    cases i with
    | zero =>
      cases j with
      | zero => exact absurd rfl h
      | succ j => rfl
    | succ i =>
      cases j with
      | zero => rfl
      | succ j =>
        simpa [List.set, List.getD] using ih i j (fun he => h (by rw [he]))

theorem getD_replicate {α : Type} (n u : Nat) (x : α) :
    (List.replicate n x).getD u x = x := by
  induction n generalizing u with
  | zero => rfl
  | succ n ih =>
    cases u with
    | zero => rfl
    | succ u => exact ih u

theorem exchange_foldl_handles_preserve (get_send_info : Nat → Nat × Nat × Nat)
    (rp : List Nat) (u : Nat) (hu : u ∉ rp) (st : exchange_result)
    (h : st.handles.getD u dart_handle_t.DART_HANDLE_NULL
      = dart_handle_t.DART_HANDLE_NULL) :
    ((rp.foldl
        (fun st unit =>
          let info := get_send_info unit
          exchange_result.mk
            (st.handles.set unit (dart_handle_t.handle unit))
            (st.gets ++ [(unit, info.1, info.2.1, info.2.2)])) st).handles.getD
      u dart_handle_t.DART_HANDLE_NULL) = dart_handle_t.DART_HANDLE_NULL := by
  induction rp generalizing st with
  | nil => exact h
  | cons p t ih =>
    simp only [List.foldl_cons]
    refine ih (fun hq => hu (List.mem_cons_of_mem _ hq)) _ ?_
    have hpu : p ≠ u := fun he => hu (he ▸ List.mem_cons_self p t)
    exact (getD_set_ne st.handles p u (dart_handle_t.handle p)
      dart_handle_t.DART_HANDLE_NULL hpu).trans h

/-- C8: when the local destination pointer is null (an empty unit),
psort__exchange_data issues no get operation and returns team.size()
handles that are all DART_HANDLE_NULL; and in every call the handles of
units not in remote_partitions remain DART_HANDLE_NULL. -/
theorem psort__exchange_data_spec (team_size : Nat)
    (remote_partitions : List Nat) (get_send_info : Nat → Nat × Nat × Nat) :
    (psort__exchange_data team_size true remote_partitions
        get_send_info).gets = []
    ∧ (psort__exchange_data team_size true remote_partitions
          get_send_info).handles
        = List.replicate team_size dart_handle_t.DART_HANDLE_NULL
    ∧ ∀ (to_local_begin_null : Bool) (u : Nat), u ∉ remote_partitions →
        (psort__exchange_data team_size to_local_begin_null remote_partitions
            get_send_info).handles.getD u dart_handle_t.DART_HANDLE_NULL
          = dart_handle_t.DART_HANDLE_NULL := by
  refine ⟨rfl, rfl, ?_⟩
  intro b u hu
  cases b with
  | true => exact getD_replicate team_size u _
  | false =>
    unfold psort__exchange_data
    simp only [Bool.false_eq_true, if_false]
    exact exchange_foldl_handles_preserve get_send_info remote_partitions u hu
      ⟨List.replicate team_size dart_handle_t.DART_HANDLE_NULL, []⟩
      (getD_replicate team_size u _)

theorem psort__exchange_data_spec_witness :
    (psort__exchange_data 2 true [1] (fun _ => (0, 0, 0))).gets = []
    ∧ (psort__exchange_data 2 false [1] (fun _ => (0, 0, 0))).handles.getD 0
        dart_handle_t.DART_HANDLE_NULL = dart_handle_t.DART_HANDLE_NULL :=
  ⟨(psort__exchange_data_spec 2 [1] (fun _ => (0, 0, 0))).1,
   (psort__exchange_data_spec 2 [1] (fun _ => (0, 0, 0))).2.2 false 0
     (by decide)⟩

/-! ### C4: psort__merge_tree -/

theorem clog2Aux_eq_clog (fuel n : Nat) (h : n ≤ fuel) :
    clog2Aux fuel n = Nat.clog 2 n := by
  induction fuel generalizing n with
  | zero =>
    have hn : n = 0 := Nat.le_zero.mp h
    subst hn
    rw [Nat.clog_of_right_le_one (by omega)]
    rfl
  | succ fuel ih =>
    by_cases h1 : n ≤ 1
    · rw [Nat.clog_of_right_le_one h1]
      simp [clog2Aux, h1]
    · have h2 : 2 ≤ n := by omega
      rw [Nat.clog_of_two_le (by norm_num) h2]
      have harg : n + 2 - 1 = n + 1 := by omega
      rw [harg]
      show (if n ≤ 1 then 0 else clog2Aux fuel ((n + 1) / 2) + 1) = _
      rw [if_neg h1, ih ((n + 1) / 2) (by omega)]

theorem ceilLog2_eq_clog (n : Nat) : ceilLog2 n = Nat.clog 2 n :=
  clog2Aux_eq_clog n n (le_refl n)

theorem ceilLog2_pos (n : Nat) (hn : 2 ≤ n) : 0 < ceilLog2 n := by
  rw [ceilLog2_eq_clog]
  exact Nat.clog_pos (by norm_num) hn

theorem le_two_pow_ceilLog2 (n : Nat) : n ≤ 2 ^ ceilLog2 n := by
  rw [ceilLog2_eq_clog]
  exact Nat.le_pow_clog (by norm_num) n

theorem two_pow_pred_ceilLog2_lt (n : Nat) (hn : 2 ≤ n) :
    2 ^ (ceilLog2 n - 1) < n := by
  rw [ceilLog2_eq_clog]
  exact Nat.pow_pred_clog_lt_self (by norm_num) (by omega)

theorem sub_half_eq (c : Nat) : c - c >>> 1 = (c + 1) / 2 := by
  rw [Nat.shiftRight_eq_div_pow, pow_one]
  omega

theorem mergeNchunks_eq (n d : Nat) :
    mergeNchunks n d = (n + 2 ^ d - 1) / 2 ^ d := by
  induction d with
  | zero => simp [mergeNchunks]
  | succ d ih =>
    have hp : 0 < 2 ^ d := Nat.two_pow_pos d
    show mergeNchunks n d - (mergeNchunks n d) >>> 1 = _
    rw [sub_half_eq, ih, ← Nat.add_div_right (n + 2 ^ d - 1) hp,
      Nat.div_div_eq_div_mul]
    have h1 : n + 2 ^ d - 1 + 2 ^ d = n + 2 ^ (d + 1) - 1 := by
      have := Nat.two_pow_pos d
      rw [pow_succ]
      omega
    have h2 : 2 ^ d * 2 = 2 ^ (d + 1) := (pow_succ 2 d).symm
    rw [h1, h2]

theorem mergeNchunks_eq_two (n d : Nat) (h1 : 2 ^ d < n)
    (h2 : n ≤ 2 ^ (d + 1)) : mergeNchunks n d = 2 := by
  rw [mergeNchunks_eq]
  have hp : 0 < 2 ^ d := Nat.two_pow_pos d
  have h2a : n ≤ 2 ^ d * 2 := by rw [← pow_succ]; exact h2
  refine Nat.div_eq_of_lt_le ?_ ?_
  · omega
  · omega

theorem mergeNchunks_ge_three (n d : Nat) (h : 2 ^ (d + 1) < n) :
    3 ≤ mergeNchunks n d := by
  rw [mergeNchunks_eq]
  have hp : 0 < 2 ^ d := Nat.two_pow_pos d
  have h1 : 2 ^ d * 2 < n := by rw [← pow_succ]; exact h
  rw [Nat.le_div_iff_mul_le hp]
  omega

theorem mergeTree_foldl_snd (np d : Nat) (st : List ChunkRange × Nat) :
    ((List.range d).foldl (mergeTreeLevel np) st).2 = mergeNchunks st.2 d := by
  induction d with
  | zero => rfl
  | succ d ih =>
    rw [List.range_succ, List.foldl_append, List.foldl_cons, List.foldl_nil]
    have hstep : (mergeTreeLevel np
          ((List.range d).foldl (mergeTreeLevel np) st) d).2
        = ((List.range d).foldl (mergeTreeLevel np) st).2
          - ((List.range d).foldl (mergeTreeLevel np) st).2 >>> 1 := rfl
    rw [hstep, ih]
    rfl

theorem mem_mapInsert_self (m : List ChunkRange) (k : ChunkRange) :
    k ∈ mapInsert m k := by
  rw [mapInsert]
  split
  · assumption
  · exact List.mem_append.mpr (Or.inr (List.mem_singleton.mpr rfl))

theorem mergeNchunks_final (n : Nat) (hn : 2 ≤ n) :
    mergeNchunks n (ceilLog2 n - 1) = 2 := by
  apply mergeNchunks_eq_two _ _ (two_pow_pred_ceilLog2_lt n hn)
  have h : ceilLog2 n - 1 + 1 = ceilLog2 n := by
    have := ceilLog2_pos n hn
    omega
  rw [h]
  exact le_two_pow_ceilLog2 n

theorem mergeKey_final (n : Nat) (hn : 2 ≤ n) :
    mergeKey n (ceilLog2 n - 1) 0 = (0, n) := by
  have hdist : (1 <<< (ceilLog2 n - 1)) <<< 1 = 2 ^ ceilLog2 n := by
    rw [Nat.shiftLeft_eq, Nat.shiftLeft_eq, one_mul, ← pow_succ]
    congr 1
    have := ceilLog2_pos n hn
    omega
  have h0 : mergeKey n (ceilLog2 n - 1) 0
      = (0, min ((1 <<< (ceilLog2 n - 1)) <<< 1) n) := by
    show (0 * ((1 <<< (ceilLog2 n - 1)) <<< 1),
      min (0 * ((1 <<< (ceilLog2 n - 1)) <<< 1)
        + ((1 <<< (ceilLog2 n - 1)) <<< 1)) n) = _
    rw [Nat.zero_mul, Nat.zero_add]
  rw [h0, hdist, min_eq_right (le_two_pow_ceilLog2 n)]

theorem mergeTree_mem_final (n : Nat) (hn : 2 ≤ n)
    (deps : List ChunkRange) :
    (0, n) ∈ psort__merge_tree deps n := by
  have hpos := ceilLog2_pos n hn
  have hd : ceilLog2 n = (ceilLog2 n - 1) + 1 := by omega
  have hgoal : psort__merge_tree deps n
      = ((List.range (ceilLog2 n)).foldl (mergeTreeLevel n) (deps, n)).1 :=
    rfl
  rw [hgoal, hd, List.range_succ, List.foldl_append, List.foldl_cons,
    List.foldl_nil]
  obtain ⟨X, hX⟩ : ∃ X,
      (List.range (ceilLog2 n - 1)).foldl (mergeTreeLevel n) (deps, n) = X :=
    ⟨_, rfl⟩
  rw [hX]
  have hsnd : X.2 = 2 := by
    rw [← hX, mergeTree_foldl_snd]
    exact mergeNchunks_final n hn
  have hlevel : (mergeTreeLevel n X (ceilLog2 n - 1)).1
      = (List.range (X.2 >>> 1)).foldl
          (fun m mm => mapInsert m (mergeKey n (ceilLog2 n - 1) mm)) X.1 :=
    rfl
  rw [hlevel, hsnd]
  have h1 : (2 : Nat) >>> 1 = 1 := rfl
  have hr1 : List.range 1 = [0] := rfl
  rw [h1, hr1, List.foldl_cons, List.foldl_nil, mergeKey_final n hn]
  exact mem_mapInsert_self X.1 (0, n)

/-- C4: in psort__merge_tree with initial nchunks at least 2 and
depth = ceil(log2 nchunks), the level at which is_final_merge
(nchunks == 2) holds is exactly the last level d = depth - 1; that level
runs exactly one merge (nmerges = 1) whose key is [0, npartitions), and
the terminating lookup of chunk_dependencies at [0, npartitions) finds an
entry. -/
theorem psort__merge_tree_final_level (nchunks : Nat) (hn : 2 ≤ nchunks)
    (chunk_dependencies : List ChunkRange) :
    (∀ d, d < ceilLog2 nchunks →
      (mergeNchunks nchunks d = 2 ↔ d = ceilLog2 nchunks - 1))
    ∧ (mergeNchunks nchunks (ceilLog2 nchunks - 1)) >>> 1 = 1
    ∧ mergeKey nchunks (ceilLog2 nchunks - 1) 0 = (0, nchunks)
    ∧ (0, nchunks) ∈ psort__merge_tree chunk_dependencies nchunks := by
  refine ⟨?_, by rw [mergeNchunks_final nchunks hn]; rfl,
    mergeKey_final nchunks hn,
    mergeTree_mem_final nchunks hn chunk_dependencies⟩
  intro d hd
  constructor
  · intro h2
    by_contra hne
    have hdlt : d + 1 ≤ ceilLog2 nchunks - 1 := by omega
    have hlt : 2 ^ (d + 1) < nchunks :=
      lt_of_le_of_lt (Nat.pow_le_pow_right (by norm_num) hdlt)
        (two_pow_pred_ceilLog2_lt nchunks hn)
    have h3 := mergeNchunks_ge_three nchunks d hlt
    omega
  · intro he
    rw [he]
    exact mergeNchunks_final nchunks hn

theorem psort__merge_tree_final_level_witness :
    mergeKey 3 (ceilLog2 3 - 1) 0 = (0, 3)
    ∧ (0, 3) ∈ psort__merge_tree [] 3 :=
  ⟨(psort__merge_tree_final_level 3 (by decide) []).2.2.1,
   (psort__merge_tree_final_level 3 (by decide) []).2.2.2⟩
